import Mathlib

/-!
# Verification of the `CodeBlock` expression interpreter

A shallow embedding of `src/python/semantic_kernel/template_engine/blocks/code_block.py`:
the token model, the grammar validator (`check_tokens`), the argument binder
(`_enrich_function_arguments`), the function resolver
(`_get_function_from_plugin_collection`) and the renderer (`render_code`,
`_render_function_call`).

Collaborator classes that the source consumes but that are not part of the
surveyed file (the individual block classes' `render`, the plugin collection,
`FunctionResult`) are modelled from the specification of their interfaces,
each marked `Modelled from the spec:` in its doc comment.
-/

namespace SKCode

/-- The inner token of a named argument: the lexer produces either a literal
value or a variable reference (spec §3: `innerToken: Value|Variable`). -/
inductive Inner where
  | value (content : String)
  | variable (name : String)
  deriving DecidableEq, Repr

/-- One lexical token of a code expression, the tagged union of the four block
kinds the source manipulates (`BlockTypes.VALUE`, `VARIABLE`, `NAMED_ARG`,
`FUNCTION_ID`).  `functionId` carries the optional plugin (namespace) name and
the function name, as `FunctionIdBlock` does. -/
inductive Block where
  | value (content : String)
  | variable (name : String)
  | namedArg (name : String) (inner : Inner)
  | functionId (pluginName : Option String) (functionName : String)
  deriving DecidableEq, Repr

/-- `token.type == BlockTypes.NAMED_ARG` -/
def Block.isNamedArg : Block → Bool
  | .namedArg _ _ => true
  | _ => false

/-- `token.type == BlockTypes.FUNCTION_ID` -/
def Block.isFunctionId : Block → Bool
  | .functionId _ _ => true
  | _ => false

/-- `token.type in VALID_ARG_TYPES` where
`VALID_ARG_TYPES = [BlockTypes.VALUE, BlockTypes.VARIABLE, BlockTypes.NAMED_ARG]`. -/
def Block.isValidArgType : Block → Bool
  | .value _ => true
  | .variable _ => true
  | .namedArg _ _ => true
  | .functionId _ _ => false

/-- The construction-time errors raised by `check_tokens`
(`CodeBlockTokenError` with four distinct messages; spec §7 names them
`EmptySequence`, `LeadingNamedArg`, `InvalidSecondToken`,
`ExpectedNamedArg(index)`). -/
inductive TokenError where
  | emptySequence
  | leadingNamedArg
  | invalidSecondToken
  | expectedNamedArg (index : Nat)
  deriving DecidableEq, Repr

/-- Result of a successful `check_tokens`: the token list the validator
returns (the field value of `tokens`), plus whether the non-fatal
"trailing tokens ignored" warning was logged. -/
structure CheckedTokens where
  tokens : List Block
  warned : Bool
  deriving DecidableEq, Repr

/-- The trailing loop of `check_tokens` for a leading `functionId`: every
token at index > 1 must be a named argument, else the error fires at the
first violating index (`index` starts at 2 here). -/
def checkNamedFrom (index : Nat) : List Block → Except TokenError Unit
  | [] => .ok ()
  | t :: rest =>
    if t.isNamedArg then checkNamedFrom (index + 1) rest
    else .error (.expectedNamedArg index)

/-- `CodeBlock.check_tokens` (code_block.py lines 67–103).  Empty list →
error; a leading named argument → error; a leading value/variable returns
`[token]` at once (warning if more tokens followed); a leading function id
requires token 1 (if present) to be value/variable/named-arg and every later
token to be a named argument. -/
def check_tokens (tokens : List Block) : Except TokenError CheckedTokens :=
  match tokens with
  | [] => .error .emptySequence
  | t0 :: rest =>
    match t0 with
    | .namedArg _ _ => .error .leadingNamedArg
    | .value _ => .ok ⟨[t0], decide (rest ≠ [])⟩
    | .variable _ => .ok ⟨[t0], decide (rest ≠ [])⟩
    | .functionId _ _ =>
      match rest with
      | [] => .ok ⟨[t0], false⟩
      | t1 :: rest2 =>
        if t1.isValidArgType then
          match checkNamedFrom 2 rest2 with
          | .error e => .error e
          | .ok _ => .ok ⟨t0 :: t1 :: rest2, false⟩
        else .error .invalidSecondToken

/-- The success condition of claim C1, written from the spec's words: the
token list is non-empty, token 0 is not a named argument, and if token 0 is a
function id then token 1 (when present) is a value, variable or named
argument and every token at index > 1 is a named argument. -/
def ValidShape (tokens : List Block) : Prop :=
  tokens ≠ [] ∧
  (∀ t0 ∈ tokens.head?, t0.isNamedArg = false) ∧
  (∀ t0 ∈ tokens.head?, t0.isFunctionId = true →
    (∀ t1 ∈ tokens.get? 1, t1.isValidArgType = true) ∧
    (∀ i, 1 < i → ∀ t ∈ tokens.get? i, t.isNamedArg = true))

/-- Boolean form of `ValidShape`. -/
def validShapeB : List Block → Bool
  | [] => false
  | t0 :: rest =>
    !t0.isNamedArg &&
      (!t0.isFunctionId ||
        (match rest with
         | [] => true
         | t1 :: rest2 => t1.isValidArgType && rest2.all Block.isNamedArg))

/-! ## Render-time model -/

/-- The variable-name → string-value map (`KernelArguments`), as an
association list with dict-style update (replace in place, else append). -/
abbrev Bindings := List (String × String)

/-- `arguments.get(name)`. -/
def getArg : Bindings → String → Option String
  | [], _ => none
  | (k, v) :: rest, key => if k = key then some v else getArg rest key

/-- `arguments[name] = value`: replace the existing entry in place, else
append — the update behaviour of a Python dict. -/
def setArg : Bindings → String → String → Bindings
  | [], key, v => [(key, v)]
  | (k, w) :: rest, key, v =>
    if k = key then (k, v) :: rest else (k, w) :: setArg rest key v

/-- Modelled from the spec: rendering of a named argument's inner token
(Value → its content; Variable → `bindings.get(name)`, empty string if
absent — §4.2/§4.3).  The individual block classes are not under src. -/
def renderInner (args : Bindings) : Inner → String
  | .value c => c
  | .variable n => (getArg args n).getD ""

/-- Modelled from the spec: `token.render(kernel, arguments)` for the block
kinds (Value → its content; Variable → lookup with empty default; NamedArg →
its inner token's rendering).  A function-id block's `render` is never
reached from a validated code block; it is mapped to its function name. -/
def Block.render (args : Bindings) : Block → String
  | .value c => c
  | .variable n => (getArg args n).getD ""
  | .namedArg _ inner => renderInner args inner
  | .functionId _ fn => fn

/-- `token.name`, used by the binder for named-argument (and variable)
tokens; a value or function-id block has no `name` attribute, so the binder
never reads it on a grammar-validated token list (mapped to `""`). -/
def Block.argName : Block → String
  | .namedArg n _ => n
  | .variable n => n
  | _ => ""

structure KernelParameterMetadata where
  name : String
  deriving DecidableEq, Repr

/-- The function metadata the binder and renderer consult: plugin name,
function name and the ordered declared parameters (spec §3
`FunctionDescriptor`). -/
structure KernelFunctionMetadata where
  plugin_name : String
  name : String
  parameters : List KernelParameterMetadata
  deriving DecidableEq, Repr

/-- Modelled from the spec: `FunctionResult` (not under src) — "a string
payload plus an optional embedded error indicator" (§3); `error` is the
`result.metadata.get("error")` channel. -/
structure FunctionResult where
  value : Option String
  error : Option String
  deriving DecidableEq, Repr

/-- `str(result) if result else ""`: an absent/falsy result renders as the
empty string (spec §4.2 step 6). -/
def FunctionResult.toStr (r : FunctionResult) : String := r.value.getD ""

/-- Modelled from the spec: a function handle — metadata plus the invokable
(`handle.invoke(context, bindings) -> InvocationResult`, §6). -/
structure KernelFunction where
  metadata : KernelFunctionMetadata
  invoke : Bindings → FunctionResult

/-- Modelled from the spec: a plugin — a named grouping of functions
(glossary), functions kept in registration order. -/
structure KernelPlugin where
  name : String
  functions : List (String × KernelFunction)

/-- Modelled from the spec: `plugin[function_name]` / `function_name in
plugin` — lookup within one plugin, in registration order. -/
def KernelPlugin.find (p : KernelPlugin) (functionName : String) :
    Option KernelFunction :=
  p.functions.lookup functionName

/-- Modelled from the spec: `KernelPluginCollection` (not under src) — the
registry, plugins kept in registration order, `plugins[name]` an exact
lookup by plugin name. -/
abbrev KernelPluginCollection := List KernelPlugin

/-- `plugins[plugin_name]`: exact namespace lookup. -/
def collectionFind (plugins : KernelPluginCollection) (pluginName : String) :
    Option KernelPlugin :=
  plugins.find? (fun p => p.name == pluginName)

/-- The fallback loop of `_get_function_from_plugin_collection`: scan
plugins in registration order, first plugin containing the name wins. -/
def findFallback (plugins : KernelPluginCollection) (functionName : String) :
    Option KernelFunction :=
  match plugins with
  | [] => none
  | p :: rest =>
    match p.find functionName with
    | some f => some f
    | none => findFallback rest functionName

/-- `CodeBlock._get_function_from_plugin_collection` (lines 158–179): an
exact two-level lookup when a non-empty plugin name is given, else the
fallback scan over all plugins. -/
def get_function_from_plugin_collection (plugins : KernelPluginCollection)
    (pluginName : Option String) (functionName : String) :
    Option KernelFunction :=
  match pluginName with
  | some pn =>
    if pn.length > 0 then
      (collectionFind plugins pn).bind fun p => p.find functionName
    else findFallback plugins functionName
  | none => findFallback plugins functionName

/-- The render-time errors (`CodeBlockRenderError` with four distinct
messages; spec §7 names them `NoRegistry`, `FunctionNotFound`,
`ArityMismatch`, `InvocationFailed`). -/
inductive RenderError where
  | noRegistry
  | functionNotFound (pluginName : Option String) (functionName : String)
  | arityMismatch (pluginName functionName : String) (nArgs : Nat)
  | invocationFailed (pluginName functionName : String) (innerError : String)
  deriving DecidableEq, Repr

/-- The loop of `_enrich_function_arguments` (lines 148–154): for each extra
token (indices starting at 1), render it against the current map; a
non-named token at index 1 writes under the first declared parameter's name,
every other token writes under its own name. -/
def enrichLoop (args : Bindings) (p0 : String) (index : Nat) :
    List Block → Bindings
  | [] => args
  | t :: rest =>
    let rendered := t.render args
    if !t.isNamedArg && index == 1 then
      enrichLoop (setArg args p0 rendered) p0 (index + 1) rest
    else
      enrichLoop (setArg args t.argName rendered) p0 (index + 1) rest

/-- `CodeBlock._enrich_function_arguments` (lines 137–156): fail when the
function declares no parameters, else run the binding loop over the extra
tokens. -/
def enrich_function_arguments (args : Bindings)
    (meta : KernelFunctionMetadata) (extraTokens : List Block) :
    Except RenderError Bindings :=
  match meta.parameters with
  | [] => .error (.arityMismatch meta.plugin_name meta.name extraTokens.length)
  | p0 :: _ => .ok (enrichLoop args p0.name 1 extraTokens)

/-- `CodeBlock._render_function_call` (lines 117–135): require a non-empty
plugin collection, resolve the function, clone the arguments, bind when
extra tokens exist, invoke, surface an embedded error, else stringify. -/
def render_function_call (plugins : KernelPluginCollection)
    (pluginName : Option String) (functionName : String) (rest : List Block)
    (args : Bindings) : Except RenderError String :=
  if plugins.isEmpty then .error .noRegistry
  else
    match get_function_from_plugin_collection plugins pluginName functionName with
    | none => .error (.functionNotFound pluginName functionName)
    | some f =>
      let argumentsClone := args
      match (if rest.length > 0 then
               enrich_function_arguments argumentsClone f.metadata rest
             else .ok argumentsClone) with
      | .error e => .error e
      | .ok bound =>
        let result := f.invoke bound
        match result.error with
        | some e =>
          .error (.invocationFailed f.metadata.plugin_name f.metadata.name e)
        | none => .ok result.toStr

/-- `CodeBlock.render_code` (lines 105–115): dispatch on the first token — a
function id renders via the function-call path, a value/variable renders
directly.  A validated code block is never empty; the empty case is
unreachable and maps to the empty string. -/
def render_code (plugins : KernelPluginCollection) (tokens : List Block)
    (args : Bindings) : Except RenderError String :=
  match tokens with
  | Block.functionId pn fn :: rest => render_function_call plugins pn fn rest args
  | t :: _ => .ok (t.render args)
  | [] => .ok ""

/-! ## Spec-side formulations, for comparison -/

/-- The spec's binding rule for the first extra token (§4.3), stated for
comparison with the binder: a non-named token binds positionally under the
first declared parameter, a named argument binds under its own name. -/
def bindFirst (args : Bindings) (p0 : String) (t1 : Block) : Bindings :=
  if t1.isNamedArg then setArg args t1.argName (t1.render args)
  else setArg args p0 (t1.render args)

/-- The spec's binding rule for the tokens after position 1 (§4.3), each
bound under its own name, rendered against the progressively updated map. -/
def bindNamed (args : Bindings) : List Block → Bindings
  | [] => args
  | t :: rest => bindNamed (setArg args t.argName (t.render args)) rest

/-- The binder's writes processed in an explicit order: each pair carries
the token's original position, which fixes the write key exactly as in
`_enrich_function_arguments`.  This formalizes C3's "processing the extra
tokens in any order". -/
def enrichInOrder (args : Bindings) (p0 : String) :
    List (Nat × Block) → Bindings
  | [] => args
  | (i, t) :: rest =>
    let rendered := t.render args
    if !t.isNamedArg && i == 1 then
      enrichInOrder (setArg args p0 rendered) p0 rest
    else
      enrichInOrder (setArg args t.argName rendered) p0 rest

/-! ## A heap model of the argument maps

`KernelArguments` objects are mutated in place by the binder; `copy`
allocates a fresh object.  To state the frame property of claim C7 the
argument maps live in an explicit heap, and the renderer is repeated at
heap level with the same structure as `_render_function_call`: the clone is
allocated first and every binder write targets the clone's cell. -/

/-- The heap of argument maps; a reference is an index. -/
abbrev Heap := List Bindings

/-- Dereference: the map stored in cell `r`. -/
def heapRead (h : Heap) (r : Nat) : Bindings := (h.get? r).getD []

/-- `arguments[key] = value` through reference `r`: an in-place update of
cell `r`. -/
def heapWrite (h : Heap) (r : Nat) (key v : String) : Heap :=
  h.set r (setArg (heapRead h r) key v)

/-- `copy(arguments)`: allocate a fresh cell holding the same entries and
return its reference. -/
def heapCopy (h : Heap) (r : Nat) : Heap × Nat :=
  (h ++ [heapRead h r], h.length)

/-- The binder loop acting through reference `r` (same structure as
`enrichLoop`). -/
def enrichLoopH (h : Heap) (r : Nat) (p0 : String) (index : Nat) :
    List Block → Heap
  | [] => h
  | t :: rest =>
    let rendered := t.render (heapRead h r)
    if !t.isNamedArg && index == 1 then
      enrichLoopH (heapWrite h r p0 rendered) r p0 (index + 1) rest
    else
      enrichLoopH (heapWrite h r t.argName rendered) r p0 (index + 1) rest

/-- `_enrich_function_arguments` acting through reference `r`. -/
def enrich_function_argumentsH (h : Heap) (r : Nat)
    (meta : KernelFunctionMetadata) (extraTokens : List Block) :
    Except RenderError Heap :=
  match meta.parameters with
  | [] => .error (.arityMismatch meta.plugin_name meta.name extraTokens.length)
  | p0 :: _ => .ok (enrichLoopH h r p0.name 1 extraTokens)

/-- `_render_function_call` at heap level: the caller's arguments live in
cell `caller`; the clone is allocated before binding and all binder writes
go through the clone's reference.  Returns the render outcome and the final
heap. -/
def render_function_callH (plugins : KernelPluginCollection)
    (pluginName : Option String) (functionName : String) (rest : List Block)
    (h : Heap) (caller : Nat) : Except RenderError String × Heap :=
  if plugins.isEmpty then (.error .noRegistry, h)
  else
    match get_function_from_plugin_collection plugins pluginName functionName with
    | none => (.error (.functionNotFound pluginName functionName), h)
    | some f =>
      let hc := heapCopy h caller
      match (if rest.length > 0 then
               enrich_function_argumentsH hc.1 hc.2 f.metadata rest
             else .ok hc.1) with
      | .error e => (.error e, hc.1)
      | .ok h2 =>
        let result := f.invoke (heapRead h2 hc.2)
        match result.error with
        | some e =>
          (.error (.invocationFailed f.metadata.plugin_name f.metadata.name e),
            h2)
        | none => (.ok result.toStr, h2)

/-! ## Concrete registry fixtures used by the witnesses -/

/-- Metadata of the spec's example function `add(a, b)` (§8). -/
def addMeta : KernelFunctionMetadata :=
  ⟨"math", "add", [⟨"a"⟩, ⟨"b"⟩]⟩

/-- The example function `add(a, b)`: echoes the arguments it was invoked
with, so the render result witnesses the bound values. -/
def addFunction : KernelFunction :=
  ⟨addMeta, fun args =>
    ⟨some ("a=" ++ (getArg args "a").getD "?" ++ ",b=" ++
      (getArg args "b").getD "?"), none⟩⟩

/-- Metadata of the spec's example function `noop()` with zero declared
parameters (§8). -/
def noopMeta : KernelFunctionMetadata := ⟨"util", "noop", []⟩

/-- The example function `noop()`. -/
def noopFunction : KernelFunction := ⟨noopMeta, fun _ => ⟨some "done", none⟩⟩

/-- A plugin registering `add`. -/
def mathPlugin : KernelPlugin := ⟨"math", [("add", addFunction)]⟩

/-- A plugin registering `noop`. -/
def utilPlugin : KernelPlugin := ⟨"util", [("noop", noopFunction)]⟩

/-- A function whose invocation result carries an embedded error next to a
string payload, to witness that the payload is never returned. -/
def failFunction : KernelFunction :=
  ⟨⟨"flaky", "fail", []⟩, fun _ => ⟨some "partial", some "boom"⟩⟩

/-- A plugin registering `fail`. -/
def flakyPlugin : KernelPlugin := ⟨"flaky", [("fail", failFunction)]⟩

/-! ## Helper lemmas -/

lemma validShape_iff (tokens : List Block) :
    ValidShape tokens ↔ validShapeB tokens = true := by
  match tokens with
  | [] => simp [ValidShape, validShapeB]
  | t0 :: rest =>
    have hhead : (t0 :: rest).head? = some t0 := rfl
    constructor
    · rintro ⟨-, hna, hfid⟩
      have hna0 : t0.isNamedArg = false := hna t0 (by simp [hhead])
      match rest with
      | [] =>
        cases t0 <;> simp_all [validShapeB]
      | t1 :: rest2 =>
        cases ht0 : t0.isFunctionId
        · simp [validShapeB, hna0, ht0]
        · have h2 := hfid t0 (by simp [hhead]) ht0
          have h1 : t1.isValidArgType = true := h2.1 t1 (by simp)
          have hall : ∀ t ∈ rest2, t.isNamedArg = true := by
            intro t ht
            rw [List.mem_iff_get?] at ht
            obtain ⟨i, hi⟩ := ht
            exact h2.2 (i + 2) (by omega) t (by simpa using hi)
          simp [validShapeB, hna0, ht0, h1, List.all_eq_true.mpr hall]
    · intro hb
      simp only [validShapeB, Bool.and_eq_true, Bool.not_eq_true',
        Bool.or_eq_true] at hb
      refine ⟨by simp, fun x hx => by simp [hhead] at hx; simpa [hx] using hb.1,
        fun x hx hf => ?_⟩
      simp [hhead] at hx
      subst hx
      rcases hb.2 with hnf | hrest
      · rw [hf] at hnf; cases hnf
      · match rest with
        | [] =>
          exact ⟨by simp, fun i hi t ht => by
            match i, hi with
            | (j + 2), _ => simp at ht⟩
        | t1 :: rest2 =>
          simp only [Bool.and_eq_true] at hrest
          refine ⟨fun t ht => by simp at ht; simpa [ht] using hrest.1,
            fun i hi t ht => ?_⟩
          have : (t0 :: t1 :: rest2).get? i = rest2.get? (i - 2) := by
            match i, hi with
            | (j + 2), _ => simp
          rw [this] at ht
          exact List.all_eq_true.mp hrest.2 t (List.get?_mem ht)

lemma checkNamedFrom_ok_iff (i : Nat) (l : List Block) :
    checkNamedFrom i l = .ok () ↔ ∀ t ∈ l, t.isNamedArg = true := by
  induction l generalizing i with
  | nil => simp [checkNamedFrom]
  | cons t rest ih =>
    cases ht : t.isNamedArg
    · simp [checkNamedFrom, ht]
    · simp [checkNamedFrom, ht, ih]

lemma checkNamedFrom_first_bad (i : Nat) (l : List Block)
    (h : ¬ ∀ t ∈ l, t.isNamedArg = true) :
    checkNamedFrom i l =
      .error (.expectedNamedArg (i + (l.takeWhile Block.isNamedArg).length)) := by
  induction l generalizing i with
  | nil => simp at h
  | cons t rest ih =>
    cases ht : t.isNamedArg
    · simp [checkNamedFrom, ht, List.takeWhile_cons, ht]
    · have h' : ¬ ∀ t ∈ rest, t.isNamedArg = true := by
        intro hr
        exact h (by
          intro x hx
          rcases List.mem_cons.mp hx with hx | hx
          · subst hx; exact ht
          · exact hr x hx)
      rw [show checkNamedFrom i (t :: rest) =
            (if t.isNamedArg then checkNamedFrom (i + 1) rest
             else .error (.expectedNamedArg i)) from rfl]
      rw [if_pos ht, ih (i + 1) h']
      have : (List.takeWhile Block.isNamedArg (t :: rest)).length =
          (List.takeWhile Block.isNamedArg rest).length + 1 := by
        simp [List.takeWhile_cons, ht]
      rw [this]
      have harith : i + 1 + (List.takeWhile Block.isNamedArg rest).length =
          i + ((List.takeWhile Block.isNamedArg rest).length + 1) := by omega
      rw [harith]

/-! ## Claim C1 -/

/-- **C1.** `check_tokens` succeeds exactly when the token list is non-empty,
token 0 is not a named argument, and — if token 0 is a function id — token 1
(when present) is a value, variable or named argument and every token at
index > 1 is a named argument (`ValidShape`); in every other case it fails
with the corresponding error: empty input gives `emptySequence`, a leading
named argument gives `leadingNamedArg`, a bad second token after a function
id gives `invalidSecondToken`, and a non-named-argument token after that
gives `expectedNamedArg` at the first violating index. -/
theorem check_tokens_correct (tokens : List Block) :
    ((∃ r, check_tokens tokens = .ok r) ↔ ValidShape tokens) ∧
    (tokens = [] → check_tokens tokens = .error .emptySequence) ∧
    (∀ t0 rest, tokens = t0 :: rest → t0.isNamedArg = true →
      check_tokens tokens = .error .leadingNamedArg) ∧
    (∀ pn fn t1 rest2, tokens = .functionId pn fn :: t1 :: rest2 →
      (t1.isValidArgType = false →
        check_tokens tokens = .error .invalidSecondToken) ∧
      (t1.isValidArgType = true → ¬ (∀ t ∈ rest2, t.isNamedArg = true) →
        check_tokens tokens =
          .error (.expectedNamedArg
            (2 + (rest2.takeWhile Block.isNamedArg).length)))) := by
  refine ⟨?_, ?_, ?_, ?_⟩
  · rw [validShape_iff]
    match tokens with
    | [] => simp [check_tokens, validShapeB]
    | .value c :: rest => simp [check_tokens, validShapeB, Block.isNamedArg,
        Block.isFunctionId]
    | .variable n :: rest => simp [check_tokens, validShapeB, Block.isNamedArg,
        Block.isFunctionId]
    | .namedArg n inn :: rest => simp [check_tokens, validShapeB,
        Block.isNamedArg]
    | .functionId pn fn :: [] => simp [check_tokens, validShapeB,
        Block.isNamedArg, Block.isFunctionId]
    | .functionId pn fn :: t1 :: rest2 =>
      cases h1 : t1.isValidArgType
      · simp [check_tokens, validShapeB, Block.isNamedArg, Block.isFunctionId,
          h1]
      · cases hall : rest2.all Block.isNamedArg
        · have : ¬ ∀ t ∈ rest2, t.isNamedArg = true := by
            intro hc
            rw [List.all_eq_true.mpr hc] at hall
            exact Bool.noConfusion hall
          simp [check_tokens, validShapeB, Block.isNamedArg,
            Block.isFunctionId, h1, hall,
            checkNamedFrom_first_bad 2 rest2 this]
        · have := (checkNamedFrom_ok_iff 2 rest2).mpr (List.all_eq_true.mp hall)
          simp [check_tokens, validShapeB, Block.isNamedArg,
            Block.isFunctionId, h1, hall, this]
  · rintro rfl; rfl
  · rintro t0 rest rfl h0
    match t0, h0 with
    | .namedArg n inn, _ => rfl
  · rintro pn fn t1 rest2 rfl
    constructor
    · intro h1
      simp [check_tokens, h1]
    · intro h1 hbad
      simp [check_tokens, h1, checkNamedFrom_first_bad 2 rest2 hbad]

/-- Witness for C1: concrete instances of each hypothesis-guarded branch —
a valid call shape succeeds, a leading named argument fails as stated, and a
stray non-named token after position 1 fails with `expectedNamedArg 2`. -/
theorem check_tokens_correct_witness :
    (∃ r, check_tokens [Block.functionId none "f", Block.value "1",
        Block.namedArg "b" (.value "2")] = .ok r) ∧
    check_tokens [Block.namedArg "a" (.value "1")] =
      .error .leadingNamedArg ∧
    check_tokens [Block.functionId none "f", Block.value "1",
        Block.value "2"] = .error (.expectedNamedArg 2) := by
  refine ⟨?_, ?_, ?_⟩
  · exact (check_tokens_correct _).1.mpr ((validShape_iff _).mpr rfl)
  · exact (check_tokens_correct _).2.2.1 _ _ rfl rfl
  · exact ((check_tokens_correct _).2.2.2 none "f" (Block.value "1")
      [Block.value "2"] rfl).2 rfl (by decide)

/-! ## Claim C4 -/

/-- Counterexample to **C4** as stated: parsing `[Value "hi", Variable "x"]`
succeeds, but the resulting token list is `[Value "hi"]` — the trailing
`Variable "x"` is not retained in the Expression. -/
theorem check_tokens_drops_trailing_counterexample :
    check_tokens [Block.value "hi", Block.variable "x"] =
      .ok ⟨[Block.value "hi"], true⟩ ∧
    Block.variable "x" ∉ [Block.value "hi"] :=
  ⟨rfl, by decide⟩

/-- **C4 (amended).** For every token list whose first token is a Value or
Variable and whose length is greater than 1, `check_tokens` succeeds and
emits the non-fatal "trailing tokens ignored" diagnostic, but the resulting
Expression carries only the first token: the trailing tokens are dropped
(hence never rendered). -/
theorem check_tokens_leading_value_or_variable (t0 : Block)
    (rest : List Block)
    (h : (∃ c, t0 = Block.value c) ∨ (∃ n, t0 = Block.variable n))
    (hr : rest ≠ []) :
    check_tokens (t0 :: rest) = .ok ⟨[t0], true⟩ := by
  rcases h with ⟨c, rfl⟩ | ⟨n, rfl⟩ <;> simp [check_tokens, hr]

/-- Witness for the amended C4 at a concrete input. -/
theorem check_tokens_leading_value_or_variable_witness :
    check_tokens [Block.value "hi", Block.variable "x"] =
      .ok ⟨[Block.value "hi"], true⟩ :=
  check_tokens_leading_value_or_variable _ _ (Or.inl ⟨"hi", rfl⟩)
    (by decide)

/-! ## Claim C8 -/

/-- **C8.** For every validated expression whose first token is a Value or a
Variable, `render_code` returns that first token's own rendering (Value →
its content, whatever the bindings; Variable → its looked-up value with
empty default), regardless of any trailing tokens in the original list and
of the plugin collection. -/
theorem render_code_leading_value_or_variable (c n : String)
    (rest : List Block) (args : Bindings)
    (plugins : KernelPluginCollection) :
    (∀ ct, check_tokens (Block.value c :: rest) = .ok ct →
      render_code plugins ct.tokens args = .ok c) ∧
    (∀ ct, check_tokens (Block.variable n :: rest) = .ok ct →
      render_code plugins ct.tokens args = .ok ((getArg args n).getD "")) := by
  constructor
  · intro ct h
    rw [show check_tokens (Block.value c :: rest) =
          .ok ⟨[Block.value c], decide (rest ≠ [])⟩ from rfl] at h
    rw [← Except.ok.inj h]
    rfl
  · intro ct h
    rw [show check_tokens (Block.variable n :: rest) =
          .ok ⟨[Block.variable n], decide (rest ≠ [])⟩ from rfl] at h
    rw [← Except.ok.inj h]
    rfl

/-- Witness for C8: `parse([Value "hi", Variable "x"])` renders to `"hi"`
under empty bindings and an empty plugin collection. -/
theorem render_code_leading_value_or_variable_witness :
    render_code [] [Block.value "hi"] [] = .ok "hi" :=
  (render_code_leading_value_or_variable "hi" "x" [Block.variable "x"] []
    []).1 ⟨[Block.value "hi"], true⟩ rfl

/-! ## Claim C10 -/

/-- **C10.** For every validated expression whose first token is a Value or
a Variable, rendering never consults the function registry: against the
empty/absent plugin collection it still succeeds (so it cannot fail with
`noRegistry` or `functionNotFound`). -/
theorem render_code_value_or_variable_ignores_registry (t0 : Block)
    (rest : List Block) (args : Bindings)
    (h : (∃ c, t0 = Block.value c) ∨ (∃ n, t0 = Block.variable n)) :
    ∀ ct, check_tokens (t0 :: rest) = .ok ct →
      ∃ s, render_code [] ct.tokens args = .ok s := by
  rcases h with ⟨c, rfl⟩ | ⟨n, rfl⟩
  · intro ct hct
    rw [show check_tokens (Block.value c :: rest) =
          .ok ⟨[Block.value c], decide (rest ≠ [])⟩ from rfl] at hct
    rw [← Except.ok.inj hct]
    exact ⟨c, rfl⟩
  · intro ct hct
    rw [show check_tokens (Block.variable n :: rest) =
          .ok ⟨[Block.variable n], decide (rest ≠ [])⟩ from rfl] at hct
    rw [← Except.ok.inj hct]
    exact ⟨(getArg args n).getD "", rfl⟩

/-- Witness for C10: a variable expression renders against the empty plugin
collection. -/
theorem render_code_value_or_variable_ignores_registry_witness :
    ∃ s, render_code [] [Block.variable "x"] [("x", "1")] = .ok s :=
  render_code_value_or_variable_ignores_registry (Block.variable "x") []
    [("x", "1")] (Or.inr ⟨"x", rfl⟩) ⟨[Block.variable "x"], false⟩ rfl

/-! ## Claim C2 -/

lemma length_pos_of_ne_empty (s : String) (h : s ≠ "") : 0 < s.length := by
  cases s with
  | mk data =>
    cases data with
    | nil => exact absurd rfl h
    | cons c cs => simp [String.length]

/-- **C2.** For a function id carrying a present, non-empty plugin name,
resolution is exactly the two-level lookup — that plugin by name, then the
function within it, with no fallback scan — and when that lookup yields
nothing, rendering the call fails with `functionNotFound`. -/
theorem resolve_qualified_no_fallback (plugins : KernelPluginCollection)
    (pn fn : String) (rest : List Block) (args : Bindings)
    (hpn : pn ≠ "") (hp : plugins ≠ []) :
    get_function_from_plugin_collection plugins (some pn) fn =
      ((collectionFind plugins pn).bind fun p => p.find fn) ∧
    (((collectionFind plugins pn).bind fun p => p.find fn) = none →
      render_function_call plugins (some pn) fn rest args =
        .error (.functionNotFound (some pn) fn)) := by
  have hlen : 0 < pn.length := length_pos_of_ne_empty pn hpn
  have hres : get_function_from_plugin_collection plugins (some pn) fn =
      ((collectionFind plugins pn).bind fun p => p.find fn) := by
    simp only [get_function_from_plugin_collection]
    rw [if_pos hlen]
  refine ⟨hres, fun hnone => ?_⟩
  have hne : plugins.isEmpty = false := by
    cases plugins with
    | nil => exact absurd rfl hp
    | cons p ps => rfl
  rw [render_function_call, if_neg (by rw [hne]; exact Bool.false_ne_true),
    hres, hnone]

/-- Witness for C2: with only the `math` plugin registered, the qualified
lookup `math.missing` resolves through the two-level path and the render
fails with `functionNotFound`. -/
theorem resolve_qualified_no_fallback_witness :
    get_function_from_plugin_collection [mathPlugin] (some "math") "missing" =
      ((collectionFind [mathPlugin] "math").bind fun p => p.find "missing") ∧
    render_function_call [mathPlugin] (some "math") "missing" [] [] =
      .error (.functionNotFound (some "math") "missing") := by
  have h := resolve_qualified_no_fallback [mathPlugin] "math" "missing" [] []
    (by decide) (by simp)
  exact ⟨h.1, h.2 rfl⟩

/-! ## Claim C6 -/

/-- **C6.** A function-call expression with at least one extra token whose
resolved function declares zero parameters renders to `arityMismatch`;
conversely, a call with no extra tokens can never produce `arityMismatch`,
whatever the registry and the invocation outcome. -/
theorem render_arity_mismatch :
    (∀ (plugins : KernelPluginCollection) (pn : Option String) (fn : String)
        (t1 : Block) (rest : List Block) (args : Bindings)
        (f : KernelFunction),
      plugins ≠ [] →
      get_function_from_plugin_collection plugins pn fn = some f →
      f.metadata.parameters = [] →
      render_function_call plugins pn fn (t1 :: rest) args =
        .error (.arityMismatch f.metadata.plugin_name f.metadata.name
          (t1 :: rest).length)) ∧
    (∀ (plugins : KernelPluginCollection) (pn : Option String) (fn : String)
        (args : Bindings) (pl fnm : String) (n : Nat),
      render_function_call plugins pn fn [] args ≠
        .error (.arityMismatch pl fnm n)) := by
  constructor
  · intro plugins pn fn t1 rest args f hp hres hparams
    have hne : plugins.isEmpty = false := by
      cases plugins with
      | nil => exact absurd rfl hp
      | cons p ps => rfl
    simp [render_function_call, hne, hres, enrich_function_arguments, hparams]
  · intro plugins pn fn args pl fnm n h
    by_cases hpe : plugins.isEmpty = true
    · simp [render_function_call, hpe] at h
    · cases hres : get_function_from_plugin_collection plugins pn fn with
      | none => simp [render_function_call, hpe, hres] at h
      | some f =>
        cases herr : (f.invoke args).error with
        | none => simp [render_function_call, hpe, hres, herr] at h
        | some e => simp [render_function_call, hpe, hres, herr] at h

/-- Witness for C6: `noop()` called with one value argument renders to
`arityMismatch`. -/
theorem render_arity_mismatch_witness :
    render_function_call [utilPlugin] none "noop" [Block.value "x"] [] =
      .error (.arityMismatch "util" "noop" 1) :=
  render_arity_mismatch.1 [utilPlugin] none "noop" (Block.value "x") [] []
    noopFunction (by simp) rfl rfl

/-! ## Claim C9 -/

/-- **C9.** Once a function call has resolved and its arguments have bound,
the render outcome is decided by the invocation result alone: an embedded
error fails the whole render with `invocationFailed` (no partial string is
returned), and with no embedded error the render returns the result's
string payload, an absent payload rendering as the empty string. -/
theorem render_invocation_result (plugins : KernelPluginCollection)
    (pn : Option String) (fn : String) (rest : List Block) (args : Bindings)
    (f : KernelFunction) (bound : Bindings)
    (hp : plugins.isEmpty = false)
    (hres : get_function_from_plugin_collection plugins pn fn = some f)
    (hbind : (if rest.length > 0 then
        enrich_function_arguments args f.metadata rest
      else .ok args) = .ok bound) :
    (∀ e, (f.invoke bound).error = some e →
      render_function_call plugins pn fn rest args =
        .error (.invocationFailed f.metadata.plugin_name f.metadata.name e)) ∧
    ((f.invoke bound).error = none →
      render_function_call plugins pn fn rest args =
        .ok ((f.invoke bound).value.getD "")) := by
  constructor
  · intro e herr
    simp [render_function_call, hp, hres, hbind, herr]
  · intro herr
    simp [render_function_call, hp, hres, hbind, herr, FunctionResult.toStr]

/-- Witness for C9: an invocation carrying an embedded error fails the whole
render even though a payload exists, and an error-free invocation returns
the payload. -/
theorem render_invocation_result_witness :
    render_function_call [flakyPlugin] none "fail" [] [] =
      .error (.invocationFailed "flaky" "fail" "boom") ∧
    render_function_call [utilPlugin] none "noop" [] [] = .ok "done" := by
  constructor
  · exact (render_invocation_result [flakyPlugin] none "fail" [] []
      failFunction [] rfl rfl rfl).1 "boom" rfl
  · exact (render_invocation_result [utilPlugin] none "noop" [] []
      noopFunction [] rfl rfl rfl).2 rfl

/-! ## Claim C5 -/

lemma enrichLoop_ge_two (p0 : String) (ts : List Block) :
    ∀ (args : Bindings) (i : Nat), 2 ≤ i →
      enrichLoop args p0 i ts = bindNamed args ts := by
  induction ts with
  | nil => intro args i _; rfl
  | cons t rest ih =>
    intro args i hi
    have hbeq : (i == 1) = false := by
      cases h : i == 1
      · rfl
      · exact absurd (by simpa using h : i = 1) (by omega)
    simp only [enrichLoop, bindNamed, hbeq, Bool.and_false, Bool.false_eq_true,
      if_false]
    exact ih _ (i + 1) (by omega)

/-- **C5.** The binder implements the spec's binding rule: with a non-empty
declared parameter list, the first extra token binds positionally under the
first parameter's name unless it is a named argument (which binds under its
own name), and every later token binds under its own name (`bindFirst` /
`bindNamed`); concretely, `add(a, b)` called as
`[FunctionId "add", Value "2", NamedArg "b" "3"]` is invoked with `a="2"`
and `b="3"` and the render returns the function's string result. -/
theorem enrich_binding_rule :
    (∀ (args : Bindings) (meta : KernelFunctionMetadata)
        (p0 : KernelParameterMetadata) (ps : List KernelParameterMetadata)
        (t1 : Block) (rest : List Block),
      meta.parameters = p0 :: ps →
      enrich_function_arguments args meta (t1 :: rest) =
        .ok (bindNamed (bindFirst args p0.name t1) rest)) ∧
    render_code [mathPlugin] [Block.functionId none "add", Block.value "2",
      Block.namedArg "b" (.value "3")] [] = .ok "a=2,b=3" := by
  constructor
  · intro args meta p0 ps t1 rest hp
    simp only [enrich_function_arguments, hp]
    cases ht1 : t1.isNamedArg
    · simp only [enrichLoop, bindFirst, ht1, Bool.not_false, Bool.true_and,
        beq_self_eq_true, if_true]
      exact congrArg Except.ok (enrichLoop_ge_two p0.name rest _ 2 le_rfl)
    · simp only [enrichLoop, bindFirst, ht1, Bool.not_true, Bool.false_and,
        Bool.false_eq_true, if_false, if_true]
      exact congrArg Except.ok (enrichLoop_ge_two p0.name rest _ 2 le_rfl)
  · rfl

/-- Witness for C5: the binding-rule conjunct applied at a concrete input —
`add(a, b)` with the single positional token `Value "2"`. -/
theorem enrich_binding_rule_witness :
    enrich_function_arguments [] addMeta [Block.value "2"] =
      .ok (bindNamed (bindFirst [] "a" (Block.value "2")) []) :=
  enrich_binding_rule.1 [] addMeta ⟨"a"⟩ [⟨"b"⟩] (Block.value "2") [] rfl

/-! ## Claim C3 -/

/-- Counterexample to **C3** as stated: the same two binder writes —
position 1 `Value "2"` (bound under parameter `a`) and position 2
`NamedArg b = Variable a` — processed in the two orders produce different
final maps, because the later token's variable lookup sees the earlier
write.  In token order `b` ends up `"2"`; in the reversed order `b` ends
up `""`. -/
theorem enrich_order_dependence_counterexample :
    enrich_function_arguments [] addMeta
        [Block.value "2", Block.namedArg "b" (.variable "a")] =
      .ok [("a", "2"), ("b", "2")] ∧
    enrichInOrder [] "a"
        [(1, Block.value "2"), (2, Block.namedArg "b" (.variable "a"))] =
      [("a", "2"), ("b", "2")] ∧
    enrichInOrder [] "a"
        [(2, Block.namedArg "b" (.variable "a")), (1, Block.value "2")] =
      [("b", ""), ("a", "2")] ∧
    getArg [("a", "2"), ("b", "2")] "b" ≠ getArg [("b", ""), ("a", "2")] "b" :=
  ⟨rfl, rfl, rfl, by decide⟩

lemma getArg_setArg_self (b : Bindings) (k v : String) :
    getArg (setArg b k v) k = some v := by
  induction b with
  | nil => simp [setArg, getArg]
  | cons p rest ih =>
    obtain ⟨k', v'⟩ := p
    by_cases h : k' = k
    · simp [setArg, getArg, h]
    · simp [setArg, getArg, h, ih]

lemma enrichLoop_append_named (p0 n : String) (inn : Inner) (ts : List Block) :
    ∀ (args : Bindings) (i : Nat),
      enrichLoop args p0 i (ts ++ [Block.namedArg n inn]) =
        setArg (enrichLoop args p0 i ts) n
          (renderInner (enrichLoop args p0 i ts) inn) := by
  induction ts with
  | nil =>
    intro args i
    simp [enrichLoop, Block.isNamedArg, Block.render, Block.argName]
  | cons t rest ih =>
    intro args i
    simp only [List.cons_append, enrichLoop]
    cases hc : (!t.isNamedArg && i == 1)
    · simp only [Bool.false_eq_true, if_false]
      exact ih _ (i + 1)
    · simp only [if_true]
      exact ih _ (i + 1)

/-- **C3 (amended).** Each binder write targets the key determined by its
own token and position, but the written value is rendered against the
progressively updated clone, so earlier writes can change it and the
processing order affects the final map.  In the code's fixed left-to-right
order, a repeated name is resolved by the last write: in particular, when
the last extra token is a named argument with a literal value, the final
binding for its name is that literal, whatever was written before. -/
theorem enrich_fixed_order_last_write_wins (args : Bindings)
    (meta : KernelFunctionMetadata) (p0 : KernelParameterMetadata)
    (ps : List KernelParameterMetadata) (hp : meta.parameters = p0 :: ps)
    (ts : List Block) (n v : String) :
    ∃ final,
      enrich_function_arguments args meta
          (ts ++ [Block.namedArg n (.value v)]) = .ok final ∧
      getArg final n = some v := by
  refine ⟨enrichLoop args p0.name 1 (ts ++ [Block.namedArg n (.value v)]),
    by simp [enrich_function_arguments, hp], ?_⟩
  rw [enrichLoop_append_named]
  simp [renderInner, getArg_setArg_self]

/-- Witness for the amended C3: `add(a, b)` bound as
`(a := "x", b := "1", b := "2")` — the final `b` is the last write `"2"`. -/
theorem enrich_fixed_order_last_write_wins_witness :
    ∃ final,
      enrich_function_arguments [] addMeta
          ([Block.value "x", Block.namedArg "b" (.value "1")] ++
            [Block.namedArg "b" (.value "2")]) = .ok final ∧
      getArg final "b" = some "2" :=
  enrich_fixed_order_last_write_wins [] addMeta ⟨"a"⟩ [⟨"b"⟩] rfl
    [Block.value "x", Block.namedArg "b" (.value "1")] "b" "2"

/-! ## Claim C7 -/

lemma enrichLoopH_frame (p0 : String) (ts : List Block) :
    ∀ (h : Heap) (r i caller : Nat), r ≠ caller →
      (enrichLoopH h r p0 i ts).get? caller = h.get? caller := by
  induction ts with
  | nil => intro h r i caller _; rfl
  | cons t rest ih =>
    intro h r i caller hne
    simp only [enrichLoopH]
    cases hc : (!t.isNamedArg && i == 1)
    · simp only [Bool.false_eq_true, if_false]
      rw [ih _ _ _ _ hne]
      exact List.get?_set_ne _ _ hne
    · simp only [if_true]
      rw [ih _ _ _ _ hne]
      exact List.get?_set_ne _ _ hne

/-- **C7.** Rendering a function call leaves the caller's bindings cell
untouched: the clone is allocated before binding and every binder write goes
through the clone's reference, so whether the render succeeds or fails, the
heap cell of the caller-supplied bindings holds afterwards exactly what it
held before. -/
theorem render_function_callH_preserves_caller
    (plugins : KernelPluginCollection) (pn : Option String) (fn : String)
    (rest : List Block) (h : Heap) (caller : Nat)
    (hcal : caller < h.length) :
    ((render_function_callH plugins pn fn rest h caller).2).get? caller =
      h.get? caller := by
  have hclone : h.length ≠ caller := by omega
  have happ : (h ++ [heapRead h caller]).get? caller = h.get? caller :=
    List.get?_append hcal
  by_cases hpe : plugins.isEmpty = true
  · simp [render_function_callH, hpe]
  · cases hres : get_function_from_plugin_collection plugins pn fn with
    | none => simp [render_function_callH, hpe, hres]
    | some f =>
      simp only [render_function_callH, hpe, hres, if_false, Bool.false_eq_true,
        heapCopy]
      cases hrest : rest with
      | nil =>
        simp only [List.length_nil, gt_iff_lt, Nat.lt_irrefl, if_false]
        cases herr : (f.invoke (heapRead (h ++ [heapRead h caller]) h.length)).error with
        | some e => simpa [herr] using happ
        | none => simpa [herr] using happ
      | cons t1 ts =>
        simp only [List.length_cons, gt_iff_lt, Nat.succ_pos, if_true,
          enrich_function_argumentsH]
        cases hparams : f.metadata.parameters with
        | nil => simpa using happ
        | cons p0 ps =>
          have hloop := enrichLoopH_frame p0.name (t1 :: ts)
            (h ++ [heapRead h caller]) h.length 1 caller hclone
          cases herr : (f.invoke (heapRead
              (enrichLoopH (h ++ [heapRead h caller]) h.length p0.name 1
                (t1 :: ts)) h.length)).error with
          | some e => simpa [herr] using hloop.trans happ
          | none => simpa [herr] using hloop.trans happ

/-- Witness for C7 at a concrete heap: a successful `add` call through the
heap-level renderer leaves the caller's cell unchanged. -/
theorem render_function_callH_preserves_caller_witness :
    ((render_function_callH [mathPlugin] none "add"
        [Block.value "2", Block.namedArg "b" (.value "3")]
        [[("x", "1")]] 0).2).get? 0 = some [("x", "1")] := by
  have := render_function_callH_preserves_caller [mathPlugin] none "add"
    [Block.value "2", Block.namedArg "b" (.value "3")] [[("x", "1")]] 0
    (by decide)
  rw [this]
  rfl

end SKCode
